import Mathlib

/-!
Verification of the sensor-exporter metrics collection core
(src/sensor-exporter/main.go), shallowly embedded in Lean 4.

Strings are modelled as `List Char`.  Go's strconv.ParseFloat (as in
the toolchains contemporary with this repository: no hexadecimal or
underscore literals) is modelled in two layers: `parseFloat` is its
base-10 numeral grammar with the exact rational value of the literal,
and `goParseFloat` is the full function, adding the special strings
nan / inf / infinity and the ErrRange rejection of numerals that
overflow float64; finite values are kept as exact rationals, so IEEE
rounding of in-range values is not modelled.  The per-scrape bytes
delivered by the remote daemon and the result of the TCP dial are
oracle inputs.  A Go runtime panic (out-of-range slice, method call on
a nil connection) is modelled as `none` in an `Option` result.
-/

namespace SensorExporter

abbrev Str := List Char

def str (s : String) : Str := s.toList

/-- Prepend one character onto the first piece of a split result
(used to describe how character-by-character scanning builds pieces). -/
def consHead (c : Char) : List Str → List Str
  | [] => [[c]]
  | r :: rs => (c :: r) :: rs

/-- Prepend a whole run of characters onto the first piece of a split result. -/
def prependAll (p : Str) : List Str → List Str
  | [] => [p]
  | r :: rs => (p ++ r) :: rs

/-- Go `strings.Split(s, "|")`: split on every occurrence of the single
delimiter character. -/
def splitP : Str → List Str
  | [] => [[]]
  | c :: rest => if c = '|' then [] :: splitP rest else consHead c (splitP rest)

/-- Go `strings.Split(s, "||")`: split on each leftmost, non-overlapping
occurrence of the double delimiter. -/
def splitDD : Str → List Str
  | [] => [[]]
  | [c] => [[c]]
  | c :: d :: rest =>
    if c = '|' ∧ d = '|' then [] :: splitDD rest
    else consHead c (splitDD (d :: rest))

/-- Sign handling of Go's strconv.ParseFloat: an optional leading
plus or minus. Returns (negative?, remainder). -/
def parseSign : Str → Bool × Str
  | [] => (false, [])
  | c :: r =>
    if c = '+' then (false, r)
    else if c = '-' then (true, r)
    else (false, c :: r)

/-- Value of a run of decimal digit characters. -/
def digitsVal (ds : Str) : ℕ :=
  ds.foldl (fun a c => 10 * a + (c.toNat - 48)) 0

/-- The base-10 numeral grammar of Go `strconv.ParseFloat(s, 64)`, with the
exact rational value of the literal: optional sign, decimal digits with at
most one point (at least one digit), optional decimal exponent; the whole
string must be consumed.  The full function, with the special strings and
the ErrRange overflow rejection on top of this grammar, is `goParseFloat`
below. -/
def parseFloat (s : Str) : Option ℚ :=
  let sg := parseSign s
  let ip := sg.2.takeWhile Char.isDigit
  let s2 := sg.2.dropWhile Char.isDigit
  let fracRest : Str × Str :=
    if s2.head? = some '.' then
      (s2.tail.takeWhile Char.isDigit, s2.tail.dropWhile Char.isDigit)
    else ([], s2)
  let frac := fracRest.1
  let s3 := fracRest.2
  if ip.length + frac.length = 0 then none
  else
    let mant : ℚ := (digitsVal (ip ++ frac) : ℚ) / (10 : ℚ) ^ frac.length
    let m : ℚ := if sg.1 then -mant else mant
    match s3 with
    | [] => some m
    | e :: r =>
      if e = 'e' ∨ e = 'E' then
        let esg := parseSign r
        let ed := esg.2.takeWhile Char.isDigit
        let r2 := esg.2.dropWhile Char.isDigit
        if ed = [] ∨ r2 ≠ [] then none
        else some (m * (10 : ℚ) ^ (if esg.1 then -(digitsVal ed : ℤ) else (digitsVal ed : ℤ)))
      else none

/-- Record type `HddTemperature` of main.go. -/
structure HddTemperature where
  Device : Str
  Id : Str
  TemperatureCelsius : ℚ
deriving DecidableEq

/-- The four distinct error sites of parseHddTemps/parseHddTemp in main.go,
named as in the specification's error taxonomy. -/
inductive ParseError where
  | malformedEnvelope
  | wrongFieldCount
  | unsupportedUnit
  | badNumber
deriving DecidableEq

/-- `parseHddTemp` of main.go: split one item on the single delimiter,
require exactly 4 fields, require unit "C", parse the temperature. -/
def parseHddTemp (s : Str) : Except ParseError HddTemperature :=
  let pieces := splitP s
  if pieces.length ≠ 4 then .error .wrongFieldCount
  else if pieces.getD 3 [] ≠ ['C'] then .error .unsupportedUnit
  else
    match parseFloat (pieces.getD 2 []) with
    | none => .error .badNumber
    | some f => .ok ⟨pieces.getD 0 [], pieces.getD 1 [], f⟩

/-- Go string slicing `s[lo:hi]`: `none` models the out-of-range panic. -/
def goSlice (s : Str) (lo hi : ℕ) : Option Str :=
  if lo ≤ hi ∧ hi ≤ s.length then some ((s.take hi).drop lo) else none

/-- The loop body of `parseHddTemps`: parse each item in order, the first
failing item aborts the whole call. -/
def parseItems : List Str → Except ParseError (List HddTemperature)
  | [] => .ok []
  | i :: rest =>
    match parseHddTemp i with
    | .error e => .error e
    | .ok t =>
      match parseItems rest with
      | .error e => .error e
      | .ok ts => .ok (t :: ts)

/-- `parseHddTemps` of main.go.  The outer `Option` models Go runtime
panics: the slice `s[1:len(s)-1]` is out of range when `s` is the single
character "|". -/
def parseHddTemps (s : Str) : Option (Except ParseError (List HddTemperature)) :=
  if s.length < 1 ∨ s.head? ≠ some '|' then some (.error .malformedEnvelope)
  else
    match goSlice s 1 (s.length - 1) with
    | none => none
    | some inner => some (parseItems (splitDD inner))

/-- Connection and buffer state of `HddCollector` in main.go; `conn = none`
models the nil `net.Conn` left behind by a failed `Init`. -/
structure HddCollector where
  conn : Option Unit
  buf : Str
deriving DecidableEq

/-- `NewHddCollector`: no connection yet, empty buffer. -/
def NewHddCollector : HddCollector := ⟨none, []⟩

inductive ConnectError | dialFailed
deriving DecidableEq

inductive ReadError | readFailed
deriving DecidableEq

/-- `HddCollector.Init`: dial once; on failure return the error and leave
the collector unchanged (its connection stays nil). -/
def HddCollector.Init (h : HddCollector) (dialResult : Option Unit) :
    Except ConnectError Unit × HddCollector :=
  match dialResult with
  | none => (.error .dialFailed, h)
  | some c => (.ok (), { h with conn := some c })

/-- `HddCollector.readTempsFromConn`: `io.Copy(&h.buf, h.conn)` appends the
bytes delivered on this scrape onto the accumulating buffer (also when the
copy ends in a read error), then returns the whole buffer as a string.
Reading from a nil connection is a Go panic, modelled as `none`. -/
def HddCollector.readTempsFromConn (h : HddCollector) (incoming : Str) (readErr : Bool) :
    Option (Except ReadError Str × HddCollector) :=
  match h.conn with
  | none => none
  | some _ =>
    let h2 : HddCollector := { h with buf := h.buf ++ incoming }
    if readErr then some (.error .readFailed, h2)
    else some (.ok h2.buf, h2)

/-- `HddCollector.Collect`: read, then parse; on a read or parse error log
and emit no records; otherwise emit one metric per parsed record.  `none`
models a panic escaping Collect. -/
def HddCollector.Collect (h : HddCollector) (incoming : Str) (readErr : Bool) :
    Option (List HddTemperature × HddCollector) :=
  match h.readTempsFromConn incoming readErr with
  | none => none
  | some (.error _, h2) => some ([], h2)
  | some (.ok tempsString, h2) =>
    match parseHddTemps tempsString with
    | none => none
    | some (.error _) => some ([], h2)
    | some (.ok ts) => some (ts, h2)

/-- A sequence of scrapes: each element is (bytes delivered by the daemon
during that scrape, whether the read ended in an error). -/
def runScrapes : HddCollector → List (Str × Bool) → Option HddCollector
  | h, [] => some h
  | h, ie :: rest =>
    match h.Collect ie.1 ie.2 with
    | none => none
    | some (_, h2) => runScrapes h2 rest

/-- Label tuple of one lm-sensors gauge entry. -/
structure SensorLabels where
  label : Str
  chip : Str
  adaptor : Str
deriving DecidableEq

/-- One prometheus GaugeVec: a map from label tuples to the most recent
value set for that tuple. -/
abbrev GaugeCache : Type := SensorLabels → Option ℚ

/-- `GaugeVec.WithLabelValues(...).Set(v)`: overwrite the entry of exactly
this label tuple. -/
def setGauge (m : GaugeCache) (k : SensorLabels) (v : ℚ) : GaugeCache :=
  fun k2 => if k2 = k then some v else m k2

/-- The four gauge caches of main.go, in declaration order. -/
structure LmGauges where
  fanspeed : GaugeCache
  voltages : GaugeCache
  powers : GaugeCache
  temperature : GaugeCache

/-- The per-feature body of `collectLm` in main.go: classify the feature by
name and write its value into the matching cache; names matching none of
the four name-beginnings are ignored. -/
def collectLmFeature (g : LmGauges) (name flabel chip adaptor : Str) (value : ℚ) : LmGauges :=
  if (str "fan").isPrefixOf name then
    { g with fanspeed := setGauge g.fanspeed ⟨flabel, chip, adaptor⟩ value }
  else if (str "temp").isPrefixOf name then
    { g with temperature := setGauge g.temperature ⟨flabel, chip, adaptor⟩ value }
  else if (str "in").isPrefixOf name then
    { g with voltages := setGauge g.voltages ⟨flabel, chip, adaptor⟩ value }
  else if (str "power").isPrefixOf name then
    { g with powers := setGauge g.powers ⟨flabel, chip, adaptor⟩ value }
  else g

/-- One raw record of the daemon's wire protocol, before encoding: device,
id and temperature text plus the rational value the temperature text
denotes. -/
structure RawRecord where
  dev : Str
  rid : Str
  rtemp : Str
  value : ℚ
deriving DecidableEq

/-- One item of the wire protocol (section 6 of the spec):
`dev|id|temp|C`. -/
def encodeItem (dev rid rtemp : Str) : Str :=
  dev ++ '|' :: rid ++ '|' :: rtemp ++ ['|', 'C']

/-- Join items with the double delimiter. -/
def joinDD : List Str → Str
  | [] => []
  | [i] => i
  | i :: j :: is => i ++ '|' :: '|' :: joinDD (j :: is)

def encodedItems (rs : List RawRecord) : List Str :=
  rs.map fun r => encodeItem r.dev r.rid r.rtemp

/-- A well-formed envelope (section 6 of the spec):
`|dev|id|temp|C||dev|id|temp|C|`. -/
def encodeEnvelope (rs : List RawRecord) : Str :=
  '|' :: (joinDD (encodedItems rs) ++ ['|'])

/-- Field conditions under which an encoded record travels through the
wire format unambiguously: no field contains the delimiter, and the id and
temperature fields are nonempty (an empty one would put the double
delimiter inside the item). -/
abbrev cleanRec (r : RawRecord) : Prop :=
  (∀ c ∈ r.dev, c ≠ '|') ∧ (∀ c ∈ r.rid, c ≠ '|') ∧ (∀ c ∈ r.rtemp, c ≠ '|') ∧
    r.rid ≠ [] ∧ r.rtemp ≠ []

/-- The value domain of Go's full ParseFloat: NaN, signed infinity, or a
finite value (kept as the exact rational of the literal; IEEE rounding of
in-range values is not modelled). -/
inductive GoFloat where
  | nan
  | inf (neg : Bool)
  | finite (val : ℚ)
deriving DecidableEq

/-- ASCII-lowercase a string, as Go's case-insensitive comparison does. -/
def lowerStr (s : Str) : Str := s.map Char.toLower

/-- Go strconv's special-value check for NaN: the whole string equals nan,
case-insensitively and with no sign allowed. -/
def isNanString (s : Str) : Bool := lowerStr s == str "nan"

/-- Go strconv's special-value check for infinity: the whole string equals
inf or infinity, case-insensitively, with an optional sign. -/
def isInfString (s : Str) : Bool :=
  (lowerStr s == str "inf") || (lowerStr s == str "infinity") ||
    (lowerStr s == str "+inf") || (lowerStr s == str "+infinity") ||
    (lowerStr s == str "-inf") || (lowerStr s == str "-infinity")

def headIsMinus : Str → Bool
  | [] => false
  | c :: _ => c == '-'

/-- The float64 overflow threshold under round-to-nearest-even: a decimal
value of magnitude at least (2^54 - 1) * 2^970 rounds to infinity, and
strconv.ParseFloat then reports ErrRange (a non-nil error). -/
def float64OverflowBound : ℚ := (2 ^ 54 - 1) * 2 ^ 970

/-- Go `strconv.ParseFloat(s, 64)` in full: `some` exactly when the error is
nil.  A string of the numeral grammar is accepted when its value stays below
the overflow threshold (ErrRange otherwise); the special strings nan and
signed inf / infinity are accepted as well.  Go checks the special strings
first; since none of them is in the numeral grammar (they contain no
digits), checking the grammar first is equivalent. -/
def goParseFloat (s : Str) : Option GoFloat :=
  match parseFloat s with
  | some q => if float64OverflowBound ≤ |q| then none else some (.finite q)
  | none =>
    if isNanString s then some .nan
    else if isInfString s then some (.inf (headIsMinus s))
    else none

/-- `HddTemperature` over the full ParseFloat value domain. -/
structure HddTemperatureG where
  Device : Str
  Id : Str
  TemperatureCelsius : GoFloat
deriving DecidableEq

/-- `parseHddTemp` of main.go over the full ParseFloat model (`parseHddTemp`
above is its restriction to in-range base-10 numerals, the fragment the
envelope-level claims exercise; `parseHddTemp_full_agrees` relates the
two). -/
def parseHddTempFull (s : Str) : Except ParseError HddTemperatureG :=
  let pieces := splitP s
  if pieces.length ≠ 4 then .error .wrongFieldCount
  else if pieces.getD 3 [] ≠ ['C'] then .error .unsupportedUnit
  else
    match goParseFloat (pieces.getD 2 []) with
    | none => .error .badNumber
    | some f => .ok ⟨pieces.getD 0 [], pieces.getD 1 [], f⟩

theorem consHead_ne_nil (c : Char) (ls : List Str) : consHead c ls ≠ [] := by
  cases ls <;> simp [consHead]

theorem prependAll_ne_nil (p : Str) (ls : List Str) : prependAll p ls ≠ [] := by
  cases ls <;> simp [prependAll]

theorem prependAll_cons (c : Char) (p : Str) (ls : List Str) :
    prependAll (c :: p) ls = consHead c (prependAll p ls) := by
  cases ls <;> simp [prependAll, consHead]

theorem splitP_cons (c : Char) (rest : Str) :
    splitP (c :: rest) =
      if c = '|' then [] :: splitP rest else consHead c (splitP rest) := by
  simp only [splitP]

theorem splitP_ne_nil (s : Str) : splitP s ≠ [] := by
  cases s with
  | nil => simp [splitP]
  | cons c rest =>
    rw [splitP_cons]
    split
    · simp
    · exact consHead_ne_nil _ _

theorem splitP_bar (rest : Str) : splitP ('|' :: rest) = [] :: splitP rest := by
  rw [splitP_cons, if_pos rfl]

theorem prependAll_nil_of_ne (ls : List Str) (h : ls ≠ []) : prependAll [] ls = ls := by
  cases ls with
  | nil => exact absurd rfl h
  | cons r rs => simp [prependAll]

theorem splitP_append_clean (p q : Str) (hp : ∀ c ∈ p, c ≠ '|') :
    splitP (p ++ q) = prependAll p (splitP q) := by
  induction p with
  | nil => simp [prependAll_nil_of_ne _ (splitP_ne_nil q)]
  | cons c p2 ih =>
    have hc : c ≠ '|' := hp c (by simp)
    have hp2 : ∀ x ∈ p2, x ≠ '|' := fun x hx => hp x (by simp [hx])
    rw [List.cons_append, splitP_cons, if_neg hc, ih hp2, prependAll_cons]

theorem splitDD_cons_cons (c d : Char) (rest : Str) :
    splitDD (c :: d :: rest) =
      if c = '|' ∧ d = '|' then [] :: splitDD rest
      else consHead c (splitDD (d :: rest)) := by
  simp only [splitDD]

theorem splitDD_ne_nil (s : Str) : splitDD s ≠ [] := by
  match s with
  | [] => simp [splitDD]
  | [c] => simp [splitDD]
  | c :: d :: rest =>
    rw [splitDD_cons_cons]
    split
    · simp
    · exact consHead_ne_nil _ _

theorem splitDD_append_clean (p q : Str) (hp : ∀ c ∈ p, c ≠ '|') :
    splitDD (p ++ q) = prependAll p (splitDD q) := by
  induction p with
  | nil => simp [prependAll_nil_of_ne _ (splitDD_ne_nil q)]
  | cons c p2 ih =>
    have hc : c ≠ '|' := hp c (by simp)
    have hp2 : ∀ x ∈ p2, x ≠ '|' := fun x hx => hp x (by simp [hx])
    rw [List.cons_append]
    cases hpq : p2 ++ q with
    | nil =>
      obtain ⟨h1, h2⟩ := List.append_eq_nil.mp hpq
      subst h1; subst h2
      simp [splitDD, prependAll]
    | cons d rest =>
      rw [splitDD_cons_cons, if_neg (by tauto), ← hpq, ih hp2, prependAll_cons]

theorem splitDD_bar_field (p X : Str) (hp : ∀ c ∈ p, c ≠ '|') (hne : p ≠ []) :
    splitDD ('|' :: (p ++ X)) = consHead '|' (prependAll p (splitDD X)) := by
  cases p with
  | nil => exact absurd rfl hne
  | cons a p2 =>
    have ha : a ≠ '|' := hp a (by simp)
    rw [List.cons_append, splitDD_cons_cons, if_neg (by tauto), ← List.cons_append,
      splitDD_append_clean _ _ hp]

theorem splitP_encodeItem (dev rid rtemp : Str)
    (hdev : ∀ c ∈ dev, c ≠ '|') (hid : ∀ c ∈ rid, c ≠ '|') (htemp : ∀ c ∈ rtemp, c ≠ '|') :
    splitP (encodeItem dev rid rtemp) = [dev, rid, rtemp, ['C']] := by
  have e : encodeItem dev rid rtemp =
      dev ++ ('|' :: (rid ++ ('|' :: (rtemp ++ ('|' :: ['C']))))) := by
    simp [encodeItem]
  rw [e, splitP_append_clean _ _ hdev, splitP_bar, splitP_append_clean _ _ hid, splitP_bar,
    splitP_append_clean _ _ htemp, splitP_bar]
  simp [splitP, consHead, prependAll]

theorem splitDD_chain (dev rid rtemp Z : Str)
    (hdev : ∀ c ∈ dev, c ≠ '|') (hid : ∀ c ∈ rid, c ≠ '|') (htemp : ∀ c ∈ rtemp, c ≠ '|')
    (hidne : rid ≠ []) (htempne : rtemp ≠ []) :
    splitDD (encodeItem dev rid rtemp ++ Z) =
      prependAll dev (consHead '|' (prependAll rid (consHead '|'
        (prependAll rtemp (consHead '|' (splitDD ('C' :: Z))))))) := by
  have e : encodeItem dev rid rtemp ++ Z =
      dev ++ ('|' :: (rid ++ ('|' :: (rtemp ++ ('|' :: ('C' :: Z)))))) := by
    simp [encodeItem]
  rw [e, splitDD_append_clean _ _ hdev, splitDD_bar_field _ _ hid hidne,
    splitDD_bar_field _ _ htemp htempne, splitDD_cons_cons, if_neg (by simp)]

theorem splitDD_item (dev rid rtemp : Str)
    (hdev : ∀ c ∈ dev, c ≠ '|') (hid : ∀ c ∈ rid, c ≠ '|') (htemp : ∀ c ∈ rtemp, c ≠ '|')
    (hidne : rid ≠ []) (htempne : rtemp ≠ []) :
    splitDD (encodeItem dev rid rtemp) = [encodeItem dev rid rtemp] := by
  have e := splitDD_chain dev rid rtemp [] hdev hid htemp hidne htempne
  rw [List.append_nil] at e
  rw [e]
  simp [splitDD, consHead, prependAll, encodeItem]

theorem splitDD_item_sep (dev rid rtemp tail : Str)
    (hdev : ∀ c ∈ dev, c ≠ '|') (hid : ∀ c ∈ rid, c ≠ '|') (htemp : ∀ c ∈ rtemp, c ≠ '|')
    (hidne : rid ≠ []) (htempne : rtemp ≠ []) :
    splitDD (encodeItem dev rid rtemp ++ '|' :: '|' :: tail) =
      encodeItem dev rid rtemp :: splitDD tail := by
  rw [splitDD_chain dev rid rtemp _ hdev hid htemp hidne htempne, splitDD_cons_cons,
    if_neg (by simp), splitDD_cons_cons, if_pos ⟨rfl, rfl⟩]
  cases hs : splitDD tail with
  | nil => exact absurd hs (splitDD_ne_nil tail)
  | cons r rs => simp [consHead, prependAll, encodeItem]

/-- The conditions of `cleanRec`, extracted. -/
theorem cleanRec_parts (r : RawRecord) (h : cleanRec r) :
    (∀ c ∈ r.dev, c ≠ '|') ∧ (∀ c ∈ r.rid, c ≠ '|') ∧ (∀ c ∈ r.rtemp, c ≠ '|') ∧
      r.rid ≠ [] ∧ r.rtemp ≠ [] := h

theorem splitDD_encoded (rs : List RawRecord) (hne : rs ≠ [])
    (hcl : ∀ r ∈ rs, cleanRec r) :
    splitDD (joinDD (encodedItems rs)) = encodedItems rs := by
  induction rs with
  | nil => exact absurd rfl hne
  | cons r rest ih =>
    obtain ⟨h1, h2, h3, h4, h5⟩ := hcl r (by simp)
    cases rest with
    | nil =>
      simp only [encodedItems, List.map_cons, List.map_nil, joinDD]
      exact splitDD_item _ _ _ h1 h2 h3 h4 h5
    | cons r2 rest2 =>
      have hcl2 : ∀ x ∈ r2 :: rest2, cleanRec x := fun x hx => hcl x (by simp [hx])
      have step : joinDD (encodedItems (r :: r2 :: rest2)) =
          encodeItem r.dev r.rid r.rtemp ++ '|' :: '|' :: joinDD (encodedItems (r2 :: rest2)) := by
        simp [encodedItems, joinDD]
      rw [step, splitDD_item_sep _ _ _ _ h1 h2 h3 h4 h5, ih (by simp) hcl2]
      simp [encodedItems]

theorem parseFloat_nil : parseFloat [] = none := rfl

theorem parseHddTemp_encodeItem (dev rid rtemp : Str) (q : ℚ)
    (hdev : ∀ c ∈ dev, c ≠ '|') (hid : ∀ c ∈ rid, c ≠ '|') (htemp : ∀ c ∈ rtemp, c ≠ '|')
    (hq : parseFloat rtemp = some q) :
    parseHddTemp (encodeItem dev rid rtemp) = .ok ⟨dev, rid, q⟩ := by
  simp [parseHddTemp, splitP_encodeItem dev rid rtemp hdev hid htemp, hq]

theorem parseItems_encoded (rs : List RawRecord)
    (hcl : ∀ r ∈ rs, cleanRec r ∧ parseFloat r.rtemp = some r.value) :
    parseItems (encodedItems rs) = .ok (rs.map fun r => ⟨r.dev, r.rid, r.value⟩) := by
  induction rs with
  | nil => simp [encodedItems, parseItems]
  | cons r rest ih =>
    obtain ⟨⟨h1, h2, h3, h4, h5⟩, hq⟩ := hcl r (by simp)
    have hcl2 : ∀ x ∈ rest, cleanRec x ∧ parseFloat x.rtemp = some x.value :=
      fun x hx => hcl x (by simp [hx])
    simp only [encodedItems, List.map_cons, parseItems,
      parseHddTemp_encodeItem r.dev r.rid r.rtemp r.value h1 h2 h3 hq]
    rw [show encodedItems rest = rest.map (fun x => encodeItem x.dev x.rid x.rtemp) from rfl] at ih
    rw [ih hcl2]

theorem goSlice_envelope (xs : Str) :
    goSlice ('|' :: (xs ++ ['|'])) 1 (('|' :: (xs ++ ['|'])).length - 1) = some xs := by
  have hlen : ('|' :: (xs ++ ['|'])).length = xs.length + 2 := by simp
  rw [hlen]
  have hcond : 1 ≤ xs.length + 2 - 1 ∧ xs.length + 2 - 1 ≤ ('|' :: (xs ++ ['|'])).length := by
    constructor
    · omega
    · rw [hlen]; omega
  rw [goSlice, if_pos hcond]
  have h2 : xs.length + 2 - 1 = xs.length + 1 := by omega
  rw [h2]
  rw [List.take_succ_cons]
  rw [List.take_left]
  simp

theorem parse_encode (rs : List RawRecord) (hne : rs ≠ [])
    (hcl : ∀ r ∈ rs, cleanRec r ∧ parseFloat r.rtemp = some r.value) :
    parseHddTemps (encodeEnvelope rs) =
      some (.ok (rs.map fun r => ⟨r.dev, r.rid, r.value⟩)) := by
  rw [encodeEnvelope, parseHddTemps]
  rw [if_neg (by simp)]
  rw [goSlice_envelope]
  show some (parseItems (splitDD (joinDD (encodedItems rs)))) = _
  rw [splitDD_encoded rs hne (fun r hr => (hcl r hr).1)]
  rw [parseItems_encoded rs hcl]

/-- One connected Collect step, written out: the buffer grows by exactly
the delivered bytes and the accumulated buffer is what is parsed. -/
theorem Collect_conn (b inc : Str) (e : Bool) :
    HddCollector.Collect ⟨some (), b⟩ inc e =
      if e then some ([], ⟨some (), b ++ inc⟩)
      else
        match parseHddTemps (b ++ inc) with
        | none => none
        | some (.error _) => some ([], ⟨some (), b ++ inc⟩)
        | some (.ok ts) => some (ts, ⟨some (), b ++ inc⟩) := by
  cases e <;> rfl

theorem runScrapes_conn_buf (incs : List (Str × Bool)) : ∀ (b : Str) (h2 : HddCollector),
    runScrapes ⟨some (), b⟩ incs = some h2 →
    h2 = ⟨some (), b ++ (incs.map Prod.fst).flatten⟩ := by
  induction incs with
  | nil =>
    intro b h2 hr
    simp only [runScrapes, Option.some.injEq] at hr
    simp [← hr]
  | cons ie rest ih =>
    intro b h2 hr
    obtain ⟨inc, e⟩ := ie
    simp only [runScrapes] at hr
    rw [Collect_conn] at hr
    cases e with
    | true =>
      rw [if_pos rfl] at hr
      have := ih (b ++ inc) h2 hr
      simpa [List.append_assoc] using this
    | false =>
      rw [if_neg (by simp)] at hr
      cases hp : parseHddTemps (b ++ inc) with
      | none => rw [hp] at hr; simp at hr
      | some res =>
        rw [hp] at hr
        cases res with
        | error pe =>
          have := ih (b ++ inc) h2 hr
          simpa [List.append_assoc] using this
        | ok ts =>
          have := ih (b ++ inc) h2 hr
          simpa [List.append_assoc] using this

theorem runScrapes_append (l1 l2 : List (Str × Bool)) : ∀ (h h2 : HddCollector),
    runScrapes h (l1 ++ l2) = some h2 →
    ∃ hm, runScrapes h l1 = some hm ∧ runScrapes hm l2 = some h2 := by
  induction l1 with
  | nil => exact fun h h2 hr => ⟨h, rfl, hr⟩
  | cons ie rest ih =>
    intro h h2 hr
    simp only [List.cons_append, runScrapes] at hr ⊢
    cases hc : h.Collect ie.1 ie.2 with
    | none => rw [hc] at hr; simp at hr
    | some p =>
      rw [hc] at hr
      exact ih p.2 h2 hr

theorem parseFloat_str_45 : parseFloat (str "45.0") = some 45 := by
  rw [show parseFloat (str "45.0") = some ((450 : ℚ) / 10 ^ 1) from rfl]
  norm_num

theorem parseFloat_str_505 : parseFloat (str "50.5") = some (101 / 2) := by
  rw [show parseFloat (str "50.5") = some ((505 : ℚ) / 10 ^ 1) from rfl]
  norm_num

/-- Claim C1: the claim says Collect never panics on any byte sequence
delivered by the daemon.  The code violates it: on the 1-byte response
consisting of the single delimiter character, parseHddTemps slices
s[1:0], which is out of range, and the scrape panics instead of logging
and yielding an empty sequence. -/
theorem hdd_collect_panics_on_short_response :
    parseHddTemps (str "|") = none ∧
    HddCollector.Collect ⟨some (), []⟩ (str "|") false = none := ⟨rfl, rfl⟩

/-- Claim C2: the claim says that after a failed Init, scrapes still
succeed with the disk-temperature metric absent.  The code violates it:
a failed Init leaves the connection nil, and every subsequent Collect
reads from the nil connection and panics. -/
theorem hdd_collect_panics_after_failed_init :
    (NewHddCollector.Init none).1 = .error .dialFailed ∧
    (NewHddCollector.Init none).2 = NewHddCollector ∧
    ∀ (inc : Str) (e : Bool),
      HddCollector.Collect (NewHddCollector.Init none).2 inc e = none :=
  ⟨rfl, rfl, fun _ _ => rfl⟩

/-- Claim C3: the read buffer is never cleared: every completed Collect
hands the parser the whole accumulated buffer, and after any sequence of
completed scrapes the buffer equals the concatenation of all bytes
received since startup, so the k-th parse input extends the history of
the previous scrapes. -/
theorem hdd_buffer_accumulates (incs : List (Str × Bool)) (h2 : HddCollector)
    (hrun : runScrapes ⟨some (), []⟩ incs = some h2) :
    h2.buf = (incs.map Prod.fst).flatten ∧
    (∀ (b inc : Str), HddCollector.readTempsFromConn ⟨some (), b⟩ inc false =
        some (.ok (b ++ inc), ⟨some (), b ++ inc⟩)) ∧
    ∀ k, k ≤ incs.length →
      runScrapes ⟨some (), []⟩ (incs.take k) =
        some ⟨some (), ((incs.take k).map Prod.fst).flatten⟩ := by
  refine ⟨?_, fun b inc => rfl, ?_⟩
  · have h := runScrapes_conn_buf incs [] h2 hrun
    simp [h]
  · intro k hk
    have hsplit : incs = incs.take k ++ incs.drop k := (List.take_append_drop k incs).symm
    rw [hsplit] at hrun
    obtain ⟨hm, h1, _⟩ := runScrapes_append (incs.take k) (incs.drop k) _ h2 hrun
    have h3 := runScrapes_conn_buf (incs.take k) [] hm h1
    rw [h1, h3]
    simp

theorem hdd_buffer_accumulates_witness :
    runScrapes ⟨some (), []⟩ [(str "ab", false), (str "cd", true)] =
      some ⟨some (), str "abcd"⟩ ∧
    runScrapes ⟨some (), []⟩ [(str "ab", false)] = some ⟨some (), str "ab"⟩ := by
  have h := hdd_buffer_accumulates [(str "ab", false), (str "cd", true)]
    ⟨some (), str "abcd"⟩ (by rfl)
  refine ⟨by rfl, ?_⟩
  have h1 := h.2.2 1 (by norm_num)
  simpa using h1

/-- Claim C4: round trip: a well-formed envelope built from distinct
delimiter-free records with unit C parses back to exactly those records,
in order, with the encoded field values. -/
theorem hdd_parse_roundtrip (rs : List RawRecord) (hne : rs ≠ [])
    (_hdistinct : (rs.map RawRecord.dev).Nodup)
    (hcl : ∀ r ∈ rs, cleanRec r ∧ parseFloat r.rtemp = some r.value) :
    parseHddTemps (encodeEnvelope rs) =
      some (.ok (rs.map fun r => ⟨r.dev, r.rid, r.value⟩)) :=
  parse_encode rs hne hcl

theorem hdd_parse_roundtrip_witness :
    parseHddTemps (str "|drive0|id1|45.0|C||drive1|id2|50.5|C|") =
      some (.ok [⟨str "drive0", str "id1", 45⟩, ⟨str "drive1", str "id2", 101 / 2⟩]) := by
  have h := hdd_parse_roundtrip
    [⟨str "drive0", str "id1", str "45.0", 45⟩,
      ⟨str "drive1", str "id2", str "50.5", 101 / 2⟩]
    (by simp) (by decide)
    (by
      intro r hr
      simp only [List.mem_cons, List.not_mem_nil, or_false] at hr
      rcases hr with h1 | h1
      · subst h1; exact ⟨by decide, parseFloat_str_45⟩
      · subst h1; exact ⟨by decide, parseFloat_str_505⟩)
  have e1 : str "|drive0|id1|45.0|C||drive1|id2|50.5|C|" =
      encodeEnvelope [⟨str "drive0", str "id1", str "45.0", 45⟩,
        ⟨str "drive1", str "id2", str "50.5", 101 / 2⟩] := by decide
  rw [e1, h]
  rfl

/-- Claim C5: any input that does not begin with the delimiter character,
the empty string included, fails as a malformed envelope with no
records. -/
theorem parse_rejects_missing_leading_delim (s : Str) (h : s.head? ≠ some '|') :
    parseHddTemps s = some (.error .malformedEnvelope) := by
  rw [parseHddTemps, if_pos (Or.inr h)]

theorem parse_rejects_missing_leading_delim_witness :
    parseHddTemps (str "drive0|id1|45.0|C|") = some (.error .malformedEnvelope) :=
  parse_rejects_missing_leading_delim (str "drive0|id1|45.0|C|") (by decide)

/-- Claim C6: an item with four fields whose fourth field is not exactly
C fails with the unsupported-unit error; no unit is ever converted. -/
theorem parse_item_rejects_nonCelsius_unit (s : Str)
    (hlen : (splitP s).length = 4) (hunit : (splitP s).getD 3 [] ≠ ['C']) :
    parseHddTemp s = .error .unsupportedUnit := by
  show (if (splitP s).length ≠ 4 then Except.error ParseError.wrongFieldCount
      else if (splitP s).getD 3 [] ≠ ['C'] then Except.error ParseError.unsupportedUnit
      else match parseFloat ((splitP s).getD 2 []) with
        | none => Except.error ParseError.badNumber
        | some f => Except.ok (HddTemperature.mk ((splitP s).getD 0 []) ((splitP s).getD 1 []) f)) =
    Except.error ParseError.unsupportedUnit
  rw [if_neg (by rw [hlen]; exact fun h => h rfl), if_pos hunit]

theorem parse_item_rejects_nonCelsius_unit_witness :
    parseHddTemp (str "drive0|id1|45.0|F") = .error .unsupportedUnit :=
  parse_item_rejects_nonCelsius_unit (str "drive0|id1|45.0|F") (by decide) (by decide)

/-- The item-level parse over the full model, with the field checks
discharged: everything reduces to goParseFloat on the third field. -/
theorem parseHddTempFull_eq (s : Str)
    (hlen : (splitP s).length = 4) (hunit : (splitP s).getD 3 [] = ['C']) :
    parseHddTempFull s =
      match goParseFloat ((splitP s).getD 2 []) with
      | none => Except.error ParseError.badNumber
      | some v =>
        Except.ok (HddTemperatureG.mk ((splitP s).getD 0 []) ((splitP s).getD 1 []) v) := by
  show (if (splitP s).length ≠ 4 then Except.error ParseError.wrongFieldCount
      else if (splitP s).getD 3 [] ≠ ['C'] then Except.error ParseError.unsupportedUnit
      else match goParseFloat ((splitP s).getD 2 []) with
        | none => Except.error ParseError.badNumber
        | some f =>
          Except.ok (HddTemperatureG.mk ((splitP s).getD 0 []) ((splitP s).getD 1 []) f)) = _
  rw [if_neg (by rw [hlen]; exact fun h => h rfl), if_neg (fun h => h hunit)]

/-- Same for the in-range rational fragment `parseHddTemp`. -/
theorem parseHddTemp_eq (s : Str)
    (hlen : (splitP s).length = 4) (hunit : (splitP s).getD 3 [] = ['C']) :
    parseHddTemp s =
      match parseFloat ((splitP s).getD 2 []) with
      | none => Except.error ParseError.badNumber
      | some q =>
        Except.ok (HddTemperature.mk ((splitP s).getD 0 []) ((splitP s).getD 1 []) q) := by
  show (if (splitP s).length ≠ 4 then Except.error ParseError.wrongFieldCount
      else if (splitP s).getD 3 [] ≠ ['C'] then Except.error ParseError.unsupportedUnit
      else match parseFloat ((splitP s).getD 2 []) with
        | none => Except.error ParseError.badNumber
        | some f =>
          Except.ok (HddTemperature.mk ((splitP s).getD 0 []) ((splitP s).getD 1 []) f)) = _
  rw [if_neg (by rw [hlen]; exact fun h => h rfl), if_neg (fun h => h hunit)]

theorem goParseFloat_lt (s : Str) (q : ℚ) (hq : parseFloat s = some q)
    (hlt : |q| < float64OverflowBound) : goParseFloat s = some (.finite q) := by
  unfold goParseFloat
  rw [hq]
  show (if float64OverflowBound ≤ |q| then none else some (GoFloat.finite q)) = _
  rw [if_neg (not_le.mpr hlt)]

theorem goParseFloat_ge (s : Str) (q : ℚ) (hq : parseFloat s = some q)
    (hge : float64OverflowBound ≤ |q|) : goParseFloat s = none := by
  unfold goParseFloat
  rw [hq]
  show (if float64OverflowBound ≤ |q| then none else some (GoFloat.finite q)) = _
  rw [if_pos hge]

theorem goParseFloat_nan (s : Str) (hpf : parseFloat s = none)
    (hnan : isNanString s = true) : goParseFloat s = some .nan := by
  unfold goParseFloat
  rw [hpf]
  show (if isNanString s then some GoFloat.nan
      else if isInfString s then some (GoFloat.inf (headIsMinus s)) else none) = _
  rw [if_pos (by rw [hnan])]

theorem goParseFloat_inf (s : Str) (hpf : parseFloat s = none)
    (hnan : isNanString s = false) (hinf : isInfString s = true) :
    goParseFloat s = some (.inf (headIsMinus s)) := by
  unfold goParseFloat
  rw [hpf]
  show (if isNanString s then some GoFloat.nan
      else if isInfString s then some (GoFloat.inf (headIsMinus s)) else none) = _
  rw [if_neg (by rw [hnan]; exact Bool.false_ne_true), if_pos (by rw [hinf])]

theorem goParseFloat_notSpecial (s : Str) (hpf : parseFloat s = none)
    (hnan : isNanString s = false) (hinf : isInfString s = false) :
    goParseFloat s = none := by
  unfold goParseFloat
  rw [hpf]
  show (if isNanString s then some GoFloat.nan
      else if isInfString s then some (GoFloat.inf (headIsMinus s)) else none) = _
  rw [if_neg (by rw [hnan]; exact Bool.false_ne_true),
    if_neg (by rw [hinf]; exact Bool.false_ne_true)]

/-- On the shared fragment - a four-field unit-C item whose third field is a
base-10 numeral below the overflow threshold - the rational model
`parseHddTemp` and the full model `parseHddTempFull` agree. -/
theorem parseHddTemp_full_agrees (s : Str) (q : ℚ)
    (hlen : (splitP s).length = 4) (hunit : (splitP s).getD 3 [] = ['C'])
    (hq : parseFloat ((splitP s).getD 2 []) = some q)
    (hlt : |q| < float64OverflowBound) :
    parseHddTemp s = .ok ⟨(splitP s).getD 0 [], (splitP s).getD 1 [], q⟩ ∧
    parseHddTempFull s = .ok ⟨(splitP s).getD 0 [], (splitP s).getD 1 [], .finite q⟩ := by
  constructor
  · rw [parseHddTemp_eq s hlen hunit, hq]
  · rw [parseHddTempFull_eq s hlen hunit, goParseFloat_lt _ _ hq hlt]

/-- Claim C7 counterexample: item success is not equivalent to the third
field being a base-10 numeral.  The third field NaN is outside the numeral
grammar yet the item parses successfully (Go's ParseFloat accepts NaN with
a nil error), while 1e400 is inside the grammar yet the item fails with the
bad-number error (ParseFloat reports ErrRange on float64 overflow). -/
theorem parse_item_numeral_iff_refuted :
    parseFloat (str "NaN") = none ∧
    parseHddTempFull (str "drive0|id1|NaN|C") =
      .ok ⟨str "drive0", str "id1", .nan⟩ ∧
    (parseFloat (str "1e400")).isSome = true ∧
    parseHddTempFull (str "drive0|id1|1e400|C") = .error .badNumber := by
  refine ⟨rfl, by rfl, rfl, ?_⟩
  have hq : parseFloat (str "1e400") = some ((10 : ℚ) ^ (400 : ℕ)) := by
    rw [show parseFloat (str "1e400") =
      some ((1 : ℚ) / 10 ^ 0 * 10 ^ ((400 : ℕ) : ℤ)) from rfl]
    norm_num
  have hge : float64OverflowBound ≤ |(10 : ℚ) ^ (400 : ℕ)| := by
    rw [abs_of_nonneg (by positivity)]
    norm_num [float64OverflowBound]
  rw [parseHddTempFull_eq (str "drive0|id1|1e400|C") (by decide) (by decide),
    show ((splitP (str "drive0|id1|1e400|C")).getD 2 []) = str "1e400" from by decide,
    goParseFloat_ge _ _ hq hge]

/-- Claim C7 amended: for a four-field item with unit C, the item succeeds
exactly when strconv.ParseFloat accepts the third field with a nil error: a
base-10 numeral succeeds, storing its exact value, only when its magnitude
stays below the float64 overflow threshold - at or beyond it ParseFloat
reports ErrRange and the item fails with the bad-number error - and the
special strings nan and optionally signed inf / infinity (case-insensitive),
though not base-10 numerals, are accepted as well; every other third field
fails with the bad-number error. -/
theorem parse_item_temperature_number_full (s : Str)
    (hlen : (splitP s).length = 4) (hunit : (splitP s).getD 3 [] = ['C']) :
    (∀ q, parseFloat ((splitP s).getD 2 []) = some q → |q| < float64OverflowBound →
      parseHddTempFull s =
        .ok ⟨(splitP s).getD 0 [], (splitP s).getD 1 [], .finite q⟩) ∧
    (∀ q, parseFloat ((splitP s).getD 2 []) = some q → float64OverflowBound ≤ |q| →
      parseHddTempFull s = .error .badNumber) ∧
    (parseFloat ((splitP s).getD 2 []) = none →
      isNanString ((splitP s).getD 2 []) = true →
      parseHddTempFull s = .ok ⟨(splitP s).getD 0 [], (splitP s).getD 1 [], .nan⟩) ∧
    (parseFloat ((splitP s).getD 2 []) = none →
      isNanString ((splitP s).getD 2 []) = false →
      isInfString ((splitP s).getD 2 []) = true →
      parseHddTempFull s = .ok ⟨(splitP s).getD 0 [], (splitP s).getD 1 [],
        .inf (headIsMinus ((splitP s).getD 2 []))⟩) ∧
    (parseFloat ((splitP s).getD 2 []) = none →
      isNanString ((splitP s).getD 2 []) = false →
      isInfString ((splitP s).getD 2 []) = false →
      parseHddTempFull s = .error .badNumber) := by
  refine ⟨?_, ?_, ?_, ?_, ?_⟩
  · intro q hq hlt
    rw [parseHddTempFull_eq s hlen hunit, goParseFloat_lt _ _ hq hlt]
  · intro q hq hge
    rw [parseHddTempFull_eq s hlen hunit, goParseFloat_ge _ _ hq hge]
  · intro hpf hnan
    rw [parseHddTempFull_eq s hlen hunit, goParseFloat_nan _ hpf hnan]
  · intro hpf hnan hinf
    rw [parseHddTempFull_eq s hlen hunit, goParseFloat_inf _ hpf hnan hinf]
  · intro hpf hnan hinf
    rw [parseHddTempFull_eq s hlen hunit, goParseFloat_notSpecial _ hpf hnan hinf]

theorem parse_item_temperature_number_full_witness :
    parseHddTempFull (str "drive0|id1|45.0|C") =
      .ok ⟨str "drive0", str "id1", .finite 45⟩ ∧
    parseHddTempFull (str "drive0|id1|NaN|C") =
      .ok ⟨str "drive0", str "id1", .nan⟩ ∧
    parseHddTempFull (str "drive0|id1|1e400|C") = .error .badNumber ∧
    parseHddTempFull (str "drive0|id1|-Inf|C") =
      .ok ⟨str "drive0", str "id1", .inf true⟩ ∧
    parseHddTempFull (str "drive0|id1|4x.0|C") = .error .badNumber := by
  have h45 := parse_item_temperature_number_full (str "drive0|id1|45.0|C")
    (by decide) (by decide)
  have hnan := parse_item_temperature_number_full (str "drive0|id1|NaN|C")
    (by decide) (by decide)
  have hbig := parse_item_temperature_number_full (str "drive0|id1|1e400|C")
    (by decide) (by decide)
  have hinf := parse_item_temperature_number_full (str "drive0|id1|-Inf|C")
    (by decide) (by decide)
  have hbad := parse_item_temperature_number_full (str "drive0|id1|4x.0|C")
    (by decide) (by decide)
  refine ⟨?_, ?_, ?_, ?_, ?_⟩
  · have h := h45.1 45
      (by rw [show ((splitP (str "drive0|id1|45.0|C")).getD 2 []) = str "45.0" from by decide]
          exact parseFloat_str_45)
      (by rw [abs_of_nonneg (by norm_num)]; norm_num [float64OverflowBound])
    exact h
  · exact hnan.2.2.1 (by rfl) (by rfl)
  · have hq : parseFloat ((splitP (str "drive0|id1|1e400|C")).getD 2 []) =
        some ((10 : ℚ) ^ (400 : ℕ)) := by
      rw [show parseFloat ((splitP (str "drive0|id1|1e400|C")).getD 2 []) =
        some ((1 : ℚ) / 10 ^ 0 * 10 ^ ((400 : ℕ) : ℤ)) from rfl]
      norm_num
    exact hbig.2.1 _ hq (by rw [abs_of_nonneg (by positivity)]; norm_num [float64OverflowBound])
  · exact hinf.2.2.2.1 (by rfl) (by rfl) (by rfl)
  · exact hbad.2.2.2.2 (by rfl) (by rfl) (by rfl)

/-- Claim C8: the poller classifies features by the beginning of their
name: temp2_input updates the temperature cache, fan1_input the fan
cache, in0_input the voltage cache, power1_input the power cache, and
beep_enable matches nothing and leaves every cache unchanged. -/
theorem lm_feature_classification (g : LmGauges) (l c a : Str) (v : ℚ) :
    collectLmFeature g (str "temp2_input") l c a v =
      { g with temperature := setGauge g.temperature ⟨l, c, a⟩ v } ∧
    collectLmFeature g (str "fan1_input") l c a v =
      { g with fanspeed := setGauge g.fanspeed ⟨l, c, a⟩ v } ∧
    collectLmFeature g (str "in0_input") l c a v =
      { g with voltages := setGauge g.voltages ⟨l, c, a⟩ v } ∧
    collectLmFeature g (str "power1_input") l c a v =
      { g with powers := setGauge g.powers ⟨l, c, a⟩ v } ∧
    collectLmFeature g (str "beep_enable") l c a v = g :=
  ⟨rfl, rfl, rfl, rfl, rfl⟩

/-- Claim C9: gauge-cache writes are last-write-wins per exact label
tuple: writing the same tuple twice leaves the second value, and every
other tuple's entry is untouched. -/
theorem gauge_last_write_wins (m : GaugeCache) (k : SensorLabels) (v1 v2 : ℚ) :
    setGauge (setGauge m k v1) k v2 k = some v2 ∧
    ∀ k2, k2 ≠ k → setGauge (setGauge m k v1) k v2 k2 = m k2 := by
  constructor
  · simp [setGauge]
  · intro k2 hk
    simp [setGauge, hk]

theorem gauge_last_write_wins_witness :
    setGauge (setGauge (fun _ => none) ⟨str "fan1", str "chip0", str "isa0"⟩ 1)
        ⟨str "fan1", str "chip0", str "isa0"⟩ 2 ⟨str "fan1", str "chip0", str "isa0"⟩ =
      some 2 ∧
    setGauge (setGauge (fun _ => none) ⟨str "fan1", str "chip0", str "isa0"⟩ 1)
        ⟨str "fan1", str "chip0", str "isa0"⟩ 2 ⟨str "fan2", str "chip0", str "isa0"⟩ =
      none := by
  have h := gauge_last_write_wins (fun _ => none) ⟨str "fan1", str "chip0", str "isa0"⟩ 1 2
  exact ⟨h.1, h.2 ⟨str "fan2", str "chip0", str "isa0"⟩ (by decide)⟩

/-- Claim C10 counterexample: an item with an empty second field does not
parse; the empty id puts the double delimiter inside the item, the item
is mis-split, and the call fails with the wrong-field-count error. -/
theorem parse_empty_id_rejected :
    parseHddTemps (str "|dev||45.0|C|") = some (.error .wrongFieldCount) := rfl

/-- Claim C10 amended: parse imposes no constraint on the device field:
a single-record envelope whose device field is the empty string parses
successfully and carries the empty string verbatim as the device; an
empty id field, by contrast, is rejected with the wrong-field-count
error. -/
theorem parse_accepts_empty_device (rid rtemp : Str) (q : ℚ)
    (hid : ∀ c ∈ rid, c ≠ '|') (hidne : rid ≠ [])
    (htemp : ∀ c ∈ rtemp, c ≠ '|') (hq : parseFloat rtemp = some q) :
    parseHddTemps (encodeEnvelope [⟨[], rid, rtemp, q⟩]) = some (.ok [⟨[], rid, q⟩]) := by
  have htne : rtemp ≠ [] := by
    intro hnil
    rw [hnil, parseFloat_nil] at hq
    exact Option.noConfusion hq
  have h := parse_encode [⟨[], rid, rtemp, q⟩] (by simp)
    (by
      intro r hr
      simp only [List.mem_singleton] at hr
      subst hr
      exact ⟨⟨by simp, hid, htemp, hidne, htne⟩, hq⟩)
  simpa using h

theorem parse_accepts_empty_device_witness :
    parseHddTemps (str "||id|45.0|C|") = some (.ok [⟨[], str "id", 45⟩]) := by
  have h := parse_accepts_empty_device (str "id") (str "45.0") 45
    (by decide) (by decide) (by decide) parseFloat_str_45
  have e1 : str "||id|45.0|C|" = encodeEnvelope [⟨[], str "id", str "45.0", 45⟩] := by decide
  rw [e1]
  exact h

end SensorExporter
